import Mathlib

/-!
Shallow embedding of the prof-activity-tracker repository
(src/daily_activity.py and src/monthly_report.py) and proofs of the
specification claims about it.
-/

/-- ASCII whitespace recognised by Python's str.strip(). -/
def pySpace (c : Char) : Bool :=
  c = ' ' || c = '\t' || c = '\n' || c = '\r' || c = '\x0b' || c = '\x0c'

/-- Python str.strip() on a list of characters. -/
def pyStripL (l : List Char) : List Char :=
  ((l.dropWhile pySpace).reverse.dropWhile pySpace).reverse

/-- Python str.strip() on a string. -/
def pyStrip (s : String) : String :=
  ⟨pyStripL s.data⟩

/-- Python s.startswith(pre). -/
def pyStartsWith (s pre : String) : Bool :=
  pre.data.isPrefixOf s.data

/-- Python s.replace(old, "") scanning left to right with non-overlapping
matches; fuel is the length of the scanned list, which always suffices. -/
def pyRemoveAllAux : Nat → List Char → List Char → List Char
  | 0, _, s => s
  | _ + 1, old, [] => (fun _ => []) old
  | fuel + 1, old, c :: rest =>
    if 0 < old.length ∧ old.isPrefixOf (c :: rest) then
      pyRemoveAllAux fuel old (rest.drop (old.length - 1))
    else
      c :: pyRemoveAllAux fuel old rest

/-- Python s.replace(old, "") for a non-empty pattern old. -/
def pyRemoveAll (old s : List Char) : List Char :=
  pyRemoveAllAux s.length old s

/-- daily_activity.normalize_openalex_author_id: strips whitespace and the
four known OpenAlex URL prefixes; empty input maps to the empty string. -/
def normalize_openalex_author_id (raw : String) : String :=
  if raw = "" then ""
  else
    let s0 := pyStripL raw.data
    let s1 := pyRemoveAll "https://openalex.org/".data s0
    let s2 := pyRemoveAll "http://openalex.org/".data s1
    let s3 := pyRemoveAll "https://api.openalex.org/authors/".data s2
    let s4 := pyRemoveAll "http://api.openalex.org/authors/".data s3
    ⟨s4⟩


/-- A work as returned by the OpenAlex works endpoint; a missing or null
field is modelled as the empty string, matching Python falsiness. -/
structure Work where
  display_name : String
  doi : String
  id : String
  publication_date : String
deriving DecidableEq

/-- An author record as returned by the OpenAlex authors endpoint. -/
structure Author where
  cited_by_count : Int
  works_count : Int
deriving DecidableEq

/-- A prior DAILY_SNAPSHOT row for one professor. -/
structure SnapPrior where
  last_check : String
  total_citations : Int
  last_pub_date : String
deriving DecidableEq

/-- A row appended to DAILY_ACTIVITY_LOG. -/
structure LogRow where
  date : String
  prof_id : String
  new_pubs : Nat
  titles : String
  links : String
  cite_delta : Int
  source : String
deriving DecidableEq

/-- A row of the rewritten DAILY_SNAPSHOT; total_works is none when the
author fetch failed and the cell is left blank. -/
structure SnapRow where
  prof_id : String
  last_check : String
  total_works : Option Int
  total_citations : Int
  last_pub_date : String
deriving DecidableEq

/-- A PROF_MASTER roster row as used by daily_activity.main. -/
structure ProfEntry where
  prof_id : String
  openalex_id : String
deriving DecidableEq

/-- The external activity source: responses of the works query and the
authors query; none models a transport failure or unparsable payload. -/
structure Source where
  fetchWorks : String → String → Option (List Work)
  fetchAuthor : String → Option Author

/-- daily_activity.get_author: shape-validates the identifier before
querying; an invalid identifier yields no data without any query. -/
def get_author (src : Source) (author_id : String) : Option Author :=
  if author_id = "" ∨ ¬ pyStartsWith author_id "A" then none
  else src.fetchAuthor author_id

/-- daily_activity.get_new_works: shape-validates the identifier before
querying; an invalid identifier or a failed query yields the empty list. -/
def get_new_works (src : Source) (author_id since_date : String) : List Work :=
  if author_id = "" ∨ ¬ pyStartsWith author_id "A" then []
  else
    match src.fetchWorks author_id since_date with
    | none => []
    | some ws => ws

/-- Prior citation total for an entity, defaulting to 0 when absent. -/
def priorCites : Option SnapPrior → Int
  | none => 0
  | some r => r.total_citations

/-- Prior last publication date for an entity, defaulting to "". -/
def priorLp : Option SnapPrior → String
  | none => ""
  | some r => r.last_pub_date

/-- Prior last-check date for an entity, defaulting to "1900-01-01". -/
def priorCheck : Option SnapPrior → String
  | none => "1900-01-01"
  | some r => r.last_check

/-- The citation delta of daily_activity.main: clamped at zero. -/
def cite_delta (total prev : Int) : Int :=
  max 0 (total - prev)

/-- Python's lexicographic comparison of strings by code points: true when
the first list of characters is strictly smaller. -/
def pyLtChars : List Char → List Char → Bool
  | [], [] => false
  | [], _ :: _ => true
  | _ :: _, [] => false
  | a :: as, b :: bs => if a < b then true else if b < a then false else pyLtChars as bs

/-- Python operator < on strings. -/
def pyLt (a b : String) : Bool :=
  pyLtChars a.data b.data

/-- Python operator <= on strings. -/
def pyLe (a b : String) : Bool :=
  ! pyLt b a

/-- Python max of two strings: the second only when strictly larger. -/
def pyMax (a b : String) : String :=
  if pyLt a b then b else a

/-- The fold of work publication dates into last_pub_date performed by the
loop of daily_activity.main lines 100-106. -/
def fold_last_pub (lp0 : String) (works : List Work) : String :=
  works.foldl
    (fun acc w => if w.publication_date ≠ "" then pyMax acc w.publication_date else acc) lp0

/-- The non-empty publication dates of a list of works, in order. -/
def pub_dates (works : List Work) : List String :=
  (works.map Work.publication_date).filter (fun d => d ≠ "")

/-- True when pattern old matches at no position of s (for non-empty old). -/
def noOccur (old s : List Char) : Bool :=
  (List.range (s.length + 1)).all (fun i => ! old.isPrefixOf (s.drop i))

/-- The four URL prefixes removed by normalize_openalex_author_id. -/
def URL_PREFIXES : List String :=
  ["https://openalex.org/", "http://openalex.org/",
   "https://api.openalex.org/authors/", "http://api.openalex.org/authors/"]

/-- Pipe-joined non-empty titles of the returned works. -/
def build_log_titles (works : List Work) : String :=
  String.intercalate " | " ((works.map Work.display_name).filter (fun t => t ≠ ""))

/-- The reference link chosen for one work: DOI preferred over the id. -/
def work_link (w : Work) : String :=
  if w.doi ≠ "" then w.doi else w.id

/-- Pipe-joined non-empty links of the returned works. -/
def build_log_links (works : List Work) : String :=
  String.intercalate " | " ((works.map work_link).filter (fun l => l ≠ ""))

/-- Lines 96-130 of daily_activity.main for one entity: from the prior
snapshot row, the fetched works and the fetched author record, produce the
optional activity-log row and the new snapshot row. -/
def compute_entity_core (prior : Option SnapPrior) (works : List Work)
    (author : Option Author) (pid today : String) : Option LogRow × SnapRow :=
  let new_pubs := works.length
  let last_pub := fold_last_pub (priorLp prior) works
  match author with
  | none => (none, ⟨pid, today, none, priorCites prior, last_pub⟩)
  | some a =>
    let total := a.cited_by_count
    let prev := priorCites prior
    let delta := cite_delta total prev
    let log :=
      if 0 < new_pubs ∨ 0 < delta then
        some ⟨today, pid, new_pubs, build_log_titles works, build_log_links works,
              delta, "OpenAlex"⟩
      else none
    (log, ⟨pid, today, some a.works_count, total, last_pub⟩)

/-- One iteration of the daily_activity.main loop: none means the entity
was skipped (blank prof_id or blank or unnormalizable identifier). -/
def process_entity (src : Source) (today : String)
    (snapshot : String → Option SnapPrior) (p : ProfEntry) :
    Option (Option LogRow × SnapRow) :=
  let pid := p.prof_id
  let raw := pyStrip p.openalex_id
  if pid = "" ∨ raw = "" then none
  else
    let author_id := normalize_openalex_author_id raw
    if author_id = "" then none
    else
      let prior := snapshot pid
      let works := get_new_works src author_id (priorCheck prior)
      let author := get_author src author_id
      some (compute_entity_core prior works author pid today)

/-- The whole entity loop of daily_activity.main: the accumulated
activity-log rows and new snapshot rows, in roster order. -/
def main_rows (src : Source) (today : String)
    (snapshot : String → Option SnapPrior) (profs : List ProfEntry) :
    List LogRow × List SnapRow :=
  profs.foldl
    (fun acc p =>
      match process_entity src today snapshot p with
      | none => acc
      | some (log, snap) =>
        (acc.1 ++ (match log with | none => [] | some l => [l]), acc.2 ++ [snap]))
    ([], [])

/-- A write effect issued by daily_activity.main after the loop. -/
inductive Effect
  | logAppend (rows : List LogRow)
  | snapClear
  | snapHeader
  | snapAppend (rows : List SnapRow)
deriving DecidableEq

/-- The ordered write trace of daily_activity.main lines 132-139: optional
log append, then snapshot clear, header row, and optional row append. -/
def write_trace (logRows : List LogRow) (snaps : List SnapRow) : List Effect :=
  (if logRows.isEmpty then [] else [Effect.logAppend logRows]) ++
  [Effect.snapClear, Effect.snapHeader] ++
  (if snaps.isEmpty then [] else [Effect.snapAppend snaps])

/-- The full write trace of a run of daily_activity.main. -/
def main_trace (src : Source) (today : String)
    (snapshot : String → Option SnapPrior) (profs : List ProfEntry) : List Effect :=
  let rows := main_rows src today snapshot profs
  write_trace rows.1 rows.2

/-- One cell of the DAILY_SNAPSHOT worksheet: header row or data row. -/
inductive SnapCell
  | header
  | row (r : SnapRow)
deriving DecidableEq

/-- The effect of one write operation on the DAILY_SNAPSHOT worksheet;
activity-log appends do not touch it. -/
def snapApply (st : List SnapCell) : Effect → List SnapCell
  | Effect.logAppend _ => st
  | Effect.snapClear => []
  | Effect.snapHeader => st ++ [SnapCell.header]
  | Effect.snapAppend rs => st ++ rs.map SnapCell.row

/-- Runs a sequence of write effects against a DAILY_SNAPSHOT state. -/
def snapRun (st : List SnapCell) (es : List Effect) : List SnapCell :=
  es.foldl snapApply st

namespace monthly_report

/-- monthly_report.VALID_STATUSES: the fixed closed status set. -/
def VALID_STATUSES : List String :=
  ["HIGHLY ACTIVE", "ACTIVE", "STABLE", "DORMANT", "STAGNANT"]

/-- monthly_report.VALID_COUNTRIES: the country allow-list. -/
def VALID_COUNTRIES : List String :=
  ["Singapore", "Malaysia"]

/-- monthly_report.COL_COUNTRY: the country column header label. -/
def COL_COUNTRY : String := "Country"

/-- monthly_report.normalize: coalesce-to-empty then strip. -/
def normalize (s : String) : String :=
  pyStrip s

/-- A PROF_MASTER roster row as used by monthly_report.main. -/
structure MRow where
  country : String
  university : String
  machines : String
  activity_status : String
  days_since_last_pub : String
deriving DecidableEq

/-- The country group monthly_report.main assigns a roster row to, or none
when the row is skipped (blank, header-like, or non-allow-listed country). -/
def group_of (p : MRow) : Option String :=
  let country := normalize p.country
  if country = "" ∨ country = COL_COUNTRY then none
  else if ¬ VALID_COUNTRIES.contains country then none
  else some country

/-- The rows monthly_report.main collects into the group of country c,
in roster order. -/
def by_country (profs : List MRow) (c : String) : List MRow :=
  profs.filter (fun p => group_of p = some c)

/-- The normalized statuses of a country group that land in the status
Counter: only members of VALID_STATUSES are tallied. -/
def status_list (rows : List MRow) : List String :=
  (rows.map (fun r => normalize r.activity_status)).filter
    (fun st => VALID_STATUSES.contains st)

/-- The status Counter of monthly_report.main looked up at one status. -/
def status_count (rows : List MRow) (st : String) : Nat :=
  (status_list rows).count st

/-- The total of a country group: the number of rows in the group. -/
def group_total (rows : List MRow) : Nat :=
  rows.length

/-- The aggregate values interpolated into the executive-summary template
of monthly_report.main. -/
structure CountryAggregate where
  month : String
  country : String
  total : Nat
  ha : Nat
  a : Nat
  s : Nat
  d : Nat
  stg : Nat
  top_unis_text : String
  top_machines_text : String
deriving DecidableEq

/-- The executive-summary sentence of monthly_report.main lines 120-127: a
pure function of the aggregate values alone. -/
def summary_text (g : CountryAggregate) : String :=
  g.month ++ " — " ++ g.country ++ " academic activity summary: " ++
  toString g.total ++ " professors tracked. " ++
  toString g.ha ++ " highly active and " ++ toString g.a ++
  " active (priority outreach), " ++ toString g.s ++ " stable. " ++
  toString (g.d + g.stg) ++ " dormant/stagnant (monitor). " ++
  "Top university clusters: " ++
  (if g.top_unis_text ≠ "" then g.top_unis_text else "N/A") ++ ". " ++
  "Most frequent equipment signals: " ++
  (if g.top_machines_text ≠ "" then g.top_machines_text else "N/A") ++ "."

/-- An EXEC_SUMMARY row: month, summary sentence, creation timestamp; the
timestamp is a separate field beside the text. -/
def exec_row (g : CountryAggregate) (created_at_utc : String) : List String :=
  [g.month, summary_text g, created_at_utc]

end monthly_report

/-- Two works used as a concrete evaluation fixture. -/
def exWorks : List Work :=
  [⟨"T1", "", "", "2023-06-01"⟩, ⟨"T2", "", "", "2024-03-15"⟩]

/-- A source whose two queries always fail. -/
def srcFail : Source :=
  ⟨fun _ _ => none, fun _ => none⟩

/-- A roster entry with a well-formed OpenAlex identifier. -/
def pA : ProfEntry := ⟨"P1", "A123"⟩

/-- A roster entry whose identifier normalizes to a token that fails the
shape validation (does not start with "A"). -/
def pX : ProfEntry := ⟨"P2", "X999"⟩

/-- A snapshot lookup with one known prior state for every entity. -/
def snapfn0 : String → Option SnapPrior :=
  fun _ => some ⟨"2024-01-01", 7, "2024-01-01"⟩

/-- Five roster rows realizing the status histogram example. -/
def exStatusRows : List monthly_report.MRow :=
  [⟨"Singapore", "U1", "", "HIGHLY ACTIVE", "10"⟩,
   ⟨"Singapore", "U1", "", "ACTIVE", "20"⟩,
   ⟨"Singapore", "U2", "", "ACTIVE", "30"⟩,
   ⟨"Singapore", "U2", "", "DORMANT", "400"⟩,
   ⟨"Singapore", "U3", "", "UNKNOWN", "50"⟩]

/-- A roster row with a non-empty country outside the allow-list. -/
def germanyRow : monthly_report.MRow :=
  ⟨"Germany", "U1", "", "ACTIVE", "10"⟩

/-- A concrete aggregate used as an evaluation fixture. -/
def exAgg : monthly_report.CountryAggregate :=
  ⟨"2025-01", "Singapore", 5, 1, 2, 0, 1, 0, "U1 | U2", "GPU cluster | HPC"⟩

theorem pyLtChars_irrefl (l : List Char) : pyLtChars l l = false := by
  induction l with
  | nil => rfl
  | cons a as ih => simp [pyLtChars, ih]

theorem pyLtChars_asymm :
    ∀ a b : List Char, pyLtChars a b = true → pyLtChars b a = false := by
  intro a
  induction a with
  | nil =>
    intro b _
    cases b with
    | nil => rfl
    | cons y ys => rfl
  | cons x xs ih =>
    intro b hab
    cases b with
    | nil => simp [pyLtChars] at hab
    | cons y ys =>
      simp only [pyLtChars] at hab ⊢
      rcases lt_trichotomy x y with hxy | hxy | hxy
      · simp [hxy, not_lt_of_gt hxy]
      · subst hxy
        simp only [lt_irrefl, if_false] at hab ⊢
        exact ih ys hab
      · simp [hxy, not_lt_of_gt hxy] at hab

theorem pyLtChars_trans_total :
    ∀ c a b : List Char, pyLtChars c a = true → pyLtChars b a = false →
      pyLtChars c b = true := by
  intro c
  induction c with
  | nil =>
    intro a b hca hba
    cases a with
    | nil => simp [pyLtChars] at hca
    | cons x xs =>
      cases b with
      | nil => simp [pyLtChars] at hba
      | cons y ys => rfl
  | cons z zs ih =>
    intro a b hca hba
    cases a with
    | nil => simp [pyLtChars] at hca
    | cons x xs =>
      cases b with
      | nil => simp [pyLtChars] at hba
      | cons y ys =>
        simp only [pyLtChars] at hca hba ⊢
        rcases lt_trichotomy z x with hzx | hzx | hzx
        · rcases lt_trichotomy y x with hyx | hyx | hyx
          · simp [hyx] at hba
          · subst hyx
            simp [hzx]
          · have hzy : z < y := lt_trans hzx hyx
            simp [hzy]
        · subst hzx
          simp only [lt_irrefl, if_false] at hca
          rcases lt_trichotomy y z with hyz | hyz | hyz
          · simp [hyz] at hba
          · subst hyz
            simp only [lt_irrefl, if_false] at hba ⊢
            exact ih xs ys hca hba
          · simp [hyz, not_lt_of_gt hyz]
        · simp [hzx, not_lt_of_gt hzx] at hca

theorem pyLe_refl (a : String) : pyLe a a := by
  simp [pyLe, pyLt, pyLtChars_irrefl]

theorem pyLe_trans {a b c : String} (hab : pyLe a b) (hbc : pyLe b c) :
    pyLe a c := by
  simp only [pyLe, pyLt, Bool.not_eq_true'] at hab hbc ⊢
  by_contra h
  rw [Bool.not_eq_false] at h
  have := pyLtChars_trans_total c.data a.data b.data h hab
  rw [this] at hbc
  exact Bool.true_eq_false.mp hbc

theorem pyLe_left_max (a b : String) : pyLe a (pyMax a b) := by
  unfold pyMax
  by_cases h : pyLt a b = true
  · simp only [h, if_true]
    simp [pyLe, pyLt] at h ⊢
    exact pyLtChars_asymm a.data b.data h
  · simp only [h, if_false]
    exact pyLe_refl a

theorem pyLe_right_max (a b : String) : pyLe b (pyMax a b) := by
  by_cases h : pyLt a b = true
  · simp [pyMax, h, pyLe_refl]
  · rw [Bool.not_eq_true] at h
    have h2 : pyLtChars a.data b.data = false := h
    simp [pyMax, pyLe, pyLt, h2]

theorem pyMax_choice (a b : String) : pyMax a b = a ∨ pyMax a b = b := by
  unfold pyMax
  by_cases h : pyLt a b = true
  · simp [h]
  · simp [h]

theorem foldl_pyMax_le_init (ds : List String) :
    ∀ x : String, pyLe x (ds.foldl pyMax x) := by
  induction ds with
  | nil => intro x; exact pyLe_refl x
  | cons d ds ih =>
    intro x
    exact pyLe_trans (pyLe_left_max x d) (ih (pyMax x d))

theorem foldl_pyMax_le_mem (ds : List String) :
    ∀ (x d : String), d ∈ ds → pyLe d (ds.foldl pyMax x) := by
  induction ds with
  | nil => intro x d hd; cases hd
  | cons e es ih =>
    intro x d hd
    rcases List.mem_cons.mp hd with h | h
    · subst h
      exact pyLe_trans (pyLe_right_max x d) (foldl_pyMax_le_init es (pyMax x d))
    · exact ih (pyMax x e) d h

theorem foldl_pyMax_choice (ds : List String) :
    ∀ x : String, ds.foldl pyMax x = x ∨ ds.foldl pyMax x ∈ ds := by
  induction ds with
  | nil => intro x; exact Or.inl rfl
  | cons d ds ih =>
    intro x
    rcases ih (pyMax x d) with h | h
    · rcases pyMax_choice x d with h2 | h2
      · left
        show ds.foldl pyMax (pyMax x d) = x
        rw [h, h2]
      · right
        show ds.foldl pyMax (pyMax x d) ∈ d :: ds
        rw [h, h2]
        exact List.mem_cons_self d ds
    · right
      show ds.foldl pyMax (pyMax x d) ∈ d :: ds
      exact List.mem_cons_of_mem d h

theorem fold_last_pub_eq (works : List Work) :
    ∀ lp0 : String, fold_last_pub lp0 works = (pub_dates works).foldl pyMax lp0 := by
  induction works with
  | nil => intro lp0; rfl
  | cons w ws ih =>
    intro lp0
    by_cases h : w.publication_date = ""
    · simp [fold_last_pub, pub_dates, h] at ih ⊢
      exact ih lp0
    · simp [fold_last_pub, pub_dates, h] at ih ⊢
      exact ih (pyMax lp0 w.publication_date)

/-- C1: for an entity whose totals query succeeds, the activity-log row is
emitted if and only if the new-publication count is positive or the
citation delta is positive; with both zero no log row is produced. -/
theorem C1_delta_record_iff_nonzero (prior : Option SnapPrior) (works : List Work)
    (a : Author) (pid today : String) :
    ((compute_entity_core prior works (some a) pid today).1.isSome ↔
      (0 < works.length ∨ 0 < cite_delta a.cited_by_count (priorCites prior))) ∧
    (works.length = 0 → cite_delta a.cited_by_count (priorCites prior) = 0 →
      (compute_entity_core prior works (some a) pid today).1 = none) := by
  constructor
  · by_cases h : 0 < works.length ∨ 0 < cite_delta a.cited_by_count (priorCites prior)
    · simp [compute_entity_core, h]
    · simp [compute_entity_core, h]
  · intro h1 h2
    simp [compute_entity_core, h1, h2]

theorem C1_delta_record_iff_nonzero_witness :
    (compute_entity_core none exWorks (some ⟨0, 2⟩) "P1" "2025-06-01").1.isSome ∧
    (compute_entity_core none [] (some ⟨0, 2⟩) "P1" "2025-06-01").1 = none := by
  constructor
  · exact (C1_delta_record_iff_nonzero none exWorks ⟨0, 2⟩ "P1" "2025-06-01").1.mpr
      (Or.inl (by decide))
  · exact (C1_delta_record_iff_nonzero none [] ⟨0, 2⟩ "P1" "2025-06-01").2 rfl (by decide)

/-- C2: the citation delta is clamped at zero: it is never negative, it is
zero whenever the current total is below the prior total, and every
activity-log row the engine emits carries a non-negative delta. -/
theorem C2_citation_delta_nonneg (total prev : Int) (prior : Option SnapPrior)
    (works : List Work) (a : Author) (pid today : String) :
    0 ≤ cite_delta total prev ∧
    (total < prev → cite_delta total prev = 0) ∧
    (∀ lr : LogRow, (compute_entity_core prior works (some a) pid today).1 = some lr →
      0 ≤ lr.cite_delta) := by
  refine ⟨le_max_left 0 _, ?_, ?_⟩
  · intro h
    unfold cite_delta
    exact max_eq_left (sub_nonpos.mpr (le_of_lt h))
  · intro lr hlr
    by_cases h : 0 < works.length ∨ 0 < cite_delta a.cited_by_count (priorCites prior)
    · simp [compute_entity_core, h] at hlr
      rw [← hlr]
      exact le_max_left 0 _
    · simp [compute_entity_core, h] at hlr

theorem C2_citation_delta_nonneg_witness :
    0 ≤ cite_delta 3 5 ∧ cite_delta 3 5 = 0 :=
  ⟨(C2_citation_delta_nonneg 3 5 none [] ⟨0, 0⟩ "P1" "d").1,
   (C2_citation_delta_nonneg 3 5 none [] ⟨0, 0⟩ "P1" "d").2.1 (by decide)⟩

/-- C3: the folded last_pub_date equals the lexicographic maximum of the
prior value and all non-empty publication dates of the returned works: it
is the fold of the Python string max over those dates, it bounds the prior
value and every non-empty date from above, and it is attained by the prior
value or one of the dates. -/
theorem C3_last_pub_date_is_max (lp0 : String) (works : List Work) :
    fold_last_pub lp0 works = (pub_dates works).foldl pyMax lp0 ∧
    pyLe lp0 (fold_last_pub lp0 works) ∧
    (∀ w ∈ works, w.publication_date ≠ "" →
      pyLe w.publication_date (fold_last_pub lp0 works)) ∧
    (fold_last_pub lp0 works = lp0 ∨
      ∃ w ∈ works, w.publication_date ≠ "" ∧
        fold_last_pub lp0 works = w.publication_date) := by
  have he := fold_last_pub_eq works lp0
  refine ⟨he, ?_, ?_, ?_⟩
  · rw [he]
    exact foldl_pyMax_le_init _ lp0
  · intro w hw hne
    rw [he]
    apply foldl_pyMax_le_mem
    simp only [pub_dates, List.mem_filter, List.mem_map]
    exact ⟨⟨w, hw, rfl⟩, by simpa using hne⟩
  · rw [he]
    rcases foldl_pyMax_choice (pub_dates works) lp0 with h | h
    · exact Or.inl h
    · right
      simp only [pub_dates, List.mem_filter, List.mem_map] at h
      obtain ⟨⟨w, hw, hpd⟩, hne⟩ := h
      exact ⟨w, hw, by simpa [hpd] using hne, hpd.symm⟩

theorem C3_last_pub_date_is_max_witness :
    fold_last_pub "2024-01-01" exWorks = "2024-03-15" ∧
    pyLe "2024-01-01" (fold_last_pub "2024-01-01" exWorks) :=
  ⟨by decide, (C3_last_pub_date_is_max "2024-01-01" exWorks).2.1⟩

theorem noOccur_drop (old s : List Char) (hold : old ≠ [])
    (h : noOccur old s = true) :
    ∀ i : Nat, old.isPrefixOf (s.drop i) = false := by
  intro i
  by_cases hi : i ≤ s.length
  · have hi2 : i < s.length + 1 := Nat.lt_succ_of_le hi
    have := (List.all_eq_true.mp h) i (List.mem_range.mpr hi2)
    simpa using this
  · have hnil : s.drop i = [] := List.drop_eq_nil_of_le (by omega)
    rw [hnil]
    cases old with
    | nil => exact absurd rfl hold
    | cons c cs => rfl

theorem pyRemoveAllAux_id (old : List Char) :
    ∀ (fuel : Nat) (s : List Char),
      (∀ i : Nat, old.isPrefixOf (s.drop i) = false) →
      pyRemoveAllAux fuel old s = s := by
  intro fuel
  induction fuel with
  | zero => intro s _; rfl
  | succ n ih =>
    intro s hocc
    cases s with
    | nil => rfl
    | cons c rest =>
      have h0 : old.isPrefixOf (c :: rest) = false := by simpa using hocc 0
      have hcond : ¬ (0 < old.length ∧ old.isPrefixOf (c :: rest)) := by
        rintro ⟨_, hp⟩
        rw [h0] at hp
        exact Bool.false_ne_true hp
      simp only [pyRemoveAllAux, if_neg hcond]
      congr 1
      apply ih
      intro i
      simpa using hocc (i + 1)

theorem pyRemoveAll_id (old s : List Char) (hold : old ≠ [])
    (h : noOccur old s = true) : pyRemoveAll old s = s :=
  pyRemoveAllAux_id old s.length s (noOccur_drop old s hold h)

/-- C4 as stated is false: on the input "https://openalex.org/ A123" the
normalizer yields " A123", whose second normalization strips the leading
space to "A123", so normalize is not idempotent on every input. -/
theorem C4_counterexample :
    normalize_openalex_author_id
        (normalize_openalex_author_id "https://openalex.org/ A123") ≠
      normalize_openalex_author_id "https://openalex.org/ A123" := by decide

/-- C4 amended: the normalizer is idempotent on every input whose
normalized form is stable, that is, carries no leading or trailing
whitespace and contains no occurrence of any of the four stripped URL
prefixes; on other inputs a second normalization can change the result. -/
theorem C4_normalize_idempotent_on_stable (x : String)
    (hstrip : pyStripL (normalize_openalex_author_id x).data =
      (normalize_openalex_author_id x).data)
    (hocc : URL_PREFIXES.all
      (fun old => noOccur old.data (normalize_openalex_author_id x).data) = true) :
    normalize_openalex_author_id (normalize_openalex_author_id x) =
      normalize_openalex_author_id x := by
  set y := normalize_openalex_author_id x with hy
  by_cases hempty : y = ""
  · rw [hempty]
    rfl
  · have hall := List.all_eq_true.mp hocc
    have hr1 := pyRemoveAll_id "https://openalex.org/".data y.data (by decide)
      (hall _ (by decide))
    have hr2 := pyRemoveAll_id "http://openalex.org/".data y.data (by decide)
      (hall _ (by decide))
    have hr3 := pyRemoveAll_id "https://api.openalex.org/authors/".data y.data (by decide)
      (hall _ (by decide))
    have hr4 := pyRemoveAll_id "http://api.openalex.org/authors/".data y.data (by decide)
      (hall _ (by decide))
    show (if y = "" then ""
      else String.mk (pyRemoveAll "http://api.openalex.org/authors/".data
        (pyRemoveAll "https://api.openalex.org/authors/".data
          (pyRemoveAll "http://openalex.org/".data
            (pyRemoveAll "https://openalex.org/".data (pyStripL y.data)))))) = y
    rw [if_neg hempty, hstrip, hr1, hr2, hr3, hr4]

theorem C4_normalize_idempotent_on_stable_witness :
    normalize_openalex_author_id (normalize_openalex_author_id "A123") =
      normalize_openalex_author_id "A123" :=
  C4_normalize_idempotent_on_stable "A123" (by decide) (by decide)

/-- C5: when the totals query fails for an entity with a non-empty
identifier, the engine still emits a snapshot row carrying forward the
previous citation total and the date-folded last_pub_date, and emits no
activity-log row for that entity. -/
theorem C5_totals_failure_carries_forward (src : Source) (today : String)
    (snapfn : String → Option SnapPrior) (p : ProfEntry)
    (h1 : p.prof_id ≠ "") (h2 : pyStrip p.openalex_id ≠ "")
    (h3 : normalize_openalex_author_id (pyStrip p.openalex_id) ≠ "")
    (h4 : get_author src (normalize_openalex_author_id (pyStrip p.openalex_id)) = none) :
    process_entity src today snapfn p = some (none,
      { prof_id := p.prof_id, last_check := today, total_works := none,
        total_citations := priorCites (snapfn p.prof_id),
        last_pub_date := fold_last_pub (priorLp (snapfn p.prof_id))
          (get_new_works src (normalize_openalex_author_id (pyStrip p.openalex_id))
            (priorCheck (snapfn p.prof_id))) }) := by
  simp only [process_entity]
  rw [if_neg (not_or.mpr ⟨h1, h2⟩), if_neg h3, h4]
  rfl

theorem C5_totals_failure_carries_forward_witness :
    process_entity srcFail "2025-06-01" snapfn0 pA =
      some (none, ⟨"P1", "2025-06-01", none, 7, "2024-01-01"⟩) :=
  C5_totals_failure_carries_forward srcFail "2025-06-01" snapfn0 pA
    (by decide) (by decide) (by decide) (by decide)

/-- C10: an entity whose non-empty normalized identifier does not start
with "A" triggers no source query (the works query yields the empty list
and the totals query yields no data for every source), yet still receives
a snapshot row carrying forward its previous citation total and last
publication date, and no activity-log row. -/
theorem C10_invalid_shape_preserves_history (src : Source) (today since : String)
    (snapfn : String → Option SnapPrior) (p : ProfEntry)
    (h1 : p.prof_id ≠ "") (h2 : pyStrip p.openalex_id ≠ "")
    (h3 : normalize_openalex_author_id (pyStrip p.openalex_id) ≠ "")
    (h4 : ¬ pyStartsWith (normalize_openalex_author_id (pyStrip p.openalex_id)) "A") :
    get_new_works src (normalize_openalex_author_id (pyStrip p.openalex_id)) since = [] ∧
    get_author src (normalize_openalex_author_id (pyStrip p.openalex_id)) = none ∧
    process_entity src today snapfn p = some (none,
      { prof_id := p.prof_id, last_check := today, total_works := none,
        total_citations := priorCites (snapfn p.prof_id),
        last_pub_date := priorLp (snapfn p.prof_id) }) := by
  have hw : ∀ d, get_new_works src (normalize_openalex_author_id (pyStrip p.openalex_id)) d
      = [] := by
    intro d
    unfold get_new_works
    rw [if_pos (Or.inr h4)]
  have ha : get_author src (normalize_openalex_author_id (pyStrip p.openalex_id)) = none := by
    unfold get_author
    rw [if_pos (Or.inr h4)]
  refine ⟨hw since, ha, ?_⟩
  simp only [process_entity]
  rw [if_neg (not_or.mpr ⟨h1, h2⟩), if_neg h3, ha, hw]
  rfl

theorem C10_invalid_shape_preserves_history_witness :
    get_new_works srcFail "X999" "2024-01-01" = [] ∧
    get_author srcFail "X999" = none ∧
    process_entity srcFail "2025-06-01" snapfn0 pX =
      some (none, ⟨"P2", "2025-06-01", none, 7, "2024-01-01"⟩) :=
  C10_invalid_shape_preserves_history srcFail "2025-06-01" "2024-01-01" snapfn0 pX
    (by decide) (by decide) (by decide) (by decide)

theorem isPre_before_marker {α : Type} (m : α) :
    ∀ (l0 : List α) (rest pre : List α), m ∉ l0 → pre <+: l0 ++ m :: rest →
      m ∉ pre → pre <+: l0 := by
  intro l0
  induction l0 with
  | nil =>
    intro rest pre _ h hp
    cases pre with
    | nil => exact ⟨[], rfl⟩
    | cons e p =>
      obtain ⟨t, ht⟩ := h
      rw [List.cons_append, List.nil_append] at ht
      injection ht with h1 _
      subst h1
      exact absurd (List.mem_cons_self e p) hp
  | cons a l ih =>
    intro rest pre hm h hp
    cases pre with
    | nil => exact ⟨a :: l, rfl⟩
    | cons e p =>
      obtain ⟨t, ht⟩ := h
      rw [List.cons_append, List.cons_append] at ht
      injection ht with h1 h2
      subst h1
      have hres := ih rest p (fun hml => hm (List.mem_cons_of_mem _ hml)) ⟨t, h2⟩
        (fun hmp => hp (List.mem_cons_of_mem _ hmp))
      obtain ⟨t2, ht2⟩ := hres
      exact ⟨t2, by rw [List.cons_append, ht2]⟩

/-- C6: every per-entity update is computed before any write is issued to
the snapshot store: running any aborted prefix of the write trace of
daily_activity.main that stops before the snapshot clear leaves the
snapshot store in its pre-run state. -/
theorem C6_snapshot_store_untouched_before_clear (src : Source) (today : String)
    (snapshot : String → Option SnapPrior) (profs : List ProfEntry)
    (st : List SnapCell) (pre : List Effect)
    (hpre : pre <+: main_trace src today snapshot profs)
    (hclear : Effect.snapClear ∉ pre) :
    snapRun st pre = st := by
  have hsplit : main_trace src today snapshot profs =
      (if (main_rows src today snapshot profs).1.isEmpty then []
        else [Effect.logAppend (main_rows src today snapshot profs).1]) ++
      Effect.snapClear ::
      (Effect.snapHeader ::
        (if (main_rows src today snapshot profs).2.isEmpty then []
          else [Effect.snapAppend (main_rows src today snapshot profs).2])) := by
    simp [main_trace, write_trace]
  rw [hsplit] at hpre
  have h2 := isPre_before_marker Effect.snapClear _ _ pre (by split <;> simp) hpre hclear
  by_cases hc : (main_rows src today snapshot profs).1.isEmpty
  · rw [if_pos hc] at h2
    rw [List.prefix_nil.mp h2]
    rfl
  · rw [if_neg hc] at h2
    obtain ⟨t, ht⟩ := h2
    cases pre with
    | nil => rfl
    | cons e p =>
      rw [List.cons_append] at ht
      injection ht with h1 h2'
      subst h1
      have hp : p = [] := by
        cases p with
        | nil => rfl
        | cons e2 p2 => simp at h2'
      subst hp
      rfl

theorem C6_snapshot_store_untouched_before_clear_witness :
    snapRun [SnapCell.header] [] = [SnapCell.header] :=
  C6_snapshot_store_untouched_before_clear srcFail "2025-06-01" snapfn0 []
    [SnapCell.header] [] ⟨_, rfl⟩ (by simp)

/-- C7: a country group's total is the number of rows in the group, the
status histogram tallies exactly the rows whose normalized status lies in
the fixed valid set and gives zero for any other status value, and on the
is 5 with counts 1, 2, 1 and UNKNOWN excluded. -/
theorem C7_histogram_over_fixed_set :
    (∀ rows : List monthly_report.MRow,
      monthly_report.group_total rows = rows.length) ∧
    (∀ (rows : List monthly_report.MRow) (st : String),
      st ∉ monthly_report.VALID_STATUSES → monthly_report.status_count rows st = 0) ∧
    (∀ (rows : List monthly_report.MRow) (st : String),
      st ∈ monthly_report.VALID_STATUSES →
      monthly_report.status_count rows st =
        ((rows.map (fun r => monthly_report.normalize r.activity_status)).filter
          (fun x => x == st)).length) ∧
    (monthly_report.group_total exStatusRows = 5 ∧
      monthly_report.status_count exStatusRows "HIGHLY ACTIVE" = 1 ∧
      monthly_report.status_count exStatusRows "ACTIVE" = 2 ∧
      monthly_report.status_count exStatusRows "DORMANT" = 1 ∧
      monthly_report.status_count exStatusRows "STABLE" = 0 ∧
      monthly_report.status_count exStatusRows "STAGNANT" = 0 ∧
      monthly_report.status_count exStatusRows "UNKNOWN" = 0) := by
  refine ⟨fun rows => rfl, ?_, ?_, by decide⟩
  · intro rows st h
    unfold monthly_report.status_count monthly_report.status_list
    rw [List.count_eq_zero]
    intro hmem
    rw [List.mem_filter] at hmem
    exact h (by simpa using hmem.2)
  · intro rows st h
    unfold monthly_report.status_count monthly_report.status_list
    rw [List.count_filter (by simpa using h)]
    rw [List.count]
    exact List.countP_eq_length_filter _ _

theorem C7_histogram_over_fixed_set_witness :
    monthly_report.status_count exStatusRows "UNKNOWN" = 0 :=
  C7_histogram_over_fixed_set.2.1 exStatusRows "UNKNOWN" (by decide)

/-- C8 as stated is false: with the configuration as written the country
filter is a fixed allow-list, so the entity with non-empty country Germany
is placed in no country group. -/
theorem C8_counterexample :
    monthly_report.normalize germanyRow.country ≠ "" ∧
    monthly_report.group_of germanyRow = none ∧
    ¬ ∃ c, germanyRow ∈ monthly_report.by_country [germanyRow] c := by
  refine ⟨by decide, by decide, ?_⟩
  rintro ⟨c, hc⟩
  rw [monthly_report.by_country] at hc
  rw [List.mem_filter] at hc
  have h2 := of_decide_eq_true hc.2
  rw [show monthly_report.group_of germanyRow = none from by decide] at h2
  exact Option.noConfusion h2

/-- C8 amended: the country filter is the fixed allow-list of
VALID_COUNTRIES: a roster entity is assigned to a country group exactly
when its stripped country value is in the allow-list, and entities with
any other non-empty country value are excluded. -/
theorem C8_allow_list_membership (p : monthly_report.MRow)
    (profs : List monthly_report.MRow) :
    ((monthly_report.group_of p).isSome ↔
      monthly_report.normalize p.country ∈ monthly_report.VALID_COUNTRIES) ∧
    (p ∈ profs →
      ((∃ c, p ∈ monthly_report.by_country profs c) ↔
        monthly_report.normalize p.country ∈ monthly_report.VALID_COUNTRIES)) := by
  have hiff : (monthly_report.group_of p).isSome ↔
      monthly_report.normalize p.country ∈ monthly_report.VALID_COUNTRIES := by
    unfold monthly_report.group_of
    by_cases h1 : monthly_report.normalize p.country = "" ∨
        monthly_report.normalize p.country = monthly_report.COL_COUNTRY
    · rw [if_pos h1]
      simp only [Option.isSome_none, Bool.false_eq_true, false_iff]
      rcases h1 with h | h <;> rw [h] <;> decide
    · rw [if_neg h1]
      by_cases h2 : monthly_report.VALID_COUNTRIES.contains
          (monthly_report.normalize p.country)
      · rw [if_neg (by simpa using h2)]
        simpa using h2
      · rw [if_pos (by simpa using h2)]
        simpa using h2
  refine ⟨hiff, fun hp => ?_⟩
  constructor
  · rintro ⟨c, hc⟩
    rw [monthly_report.by_country] at hc
    rw [List.mem_filter] at hc
    have h2 := of_decide_eq_true hc.2
    apply hiff.mp
    rw [h2]
    rfl
  · intro hm
    obtain ⟨c, hc⟩ := Option.isSome_iff_exists.mp (hiff.mpr hm)
    refine ⟨c, ?_⟩
    rw [monthly_report.by_country]
    rw [List.mem_filter]
    exact ⟨hp, decide_eq_true hc⟩

theorem C8_allow_list_membership_witness :
    (monthly_report.group_of ⟨"Singapore", "U1", "", "ACTIVE", "10"⟩).isSome ∧
    ((∃ c, germanyRow ∈ monthly_report.by_country [germanyRow] c) ↔
      monthly_report.normalize germanyRow.country ∈ monthly_report.VALID_COUNTRIES) :=
  ⟨(C8_allow_list_membership ⟨"Singapore", "U1", "", "ACTIVE", "10"⟩ []).1.mpr (by decide),
   (C8_allow_list_membership germanyRow [germanyRow]).2 (List.mem_singleton.mpr rfl)⟩

/-- C9: the executive-summary text is a pure function of the aggregate:
the summary field of the EXEC_SUMMARY row is identical across two
generations with different timestamps, and the generation timestamp is a
separate field beside the text rather than part of it. -/
theorem C9_summary_deterministic (g : monthly_report.CountryAggregate)
    (t1 t2 : String) :
    (monthly_report.exec_row g t1)[1]? = some (monthly_report.summary_text g) ∧
    (monthly_report.exec_row g t1)[1]? = (monthly_report.exec_row g t2)[1]? ∧
    (monthly_report.exec_row g t1)[2]? = some t1 :=
  ⟨rfl, rfl, rfl⟩

theorem C9_summary_deterministic_witness :
    (monthly_report.exec_row exAgg "2025-02-01T00:00:00")[1]? =
      (monthly_report.exec_row exAgg "2025-02-02T12:34:56")[1]? :=
  (C9_summary_deterministic exAgg "2025-02-01T00:00:00" "2025-02-02T12:34:56").2.1
